import Mathlib

/-!
Shallow embedding of the incremental feed-harvesting engine of the
MediaShuttleService (performDownload, downloadActivityFiles,
readDownloadedFiles, waitForUploadCompletion).

The browser page is modelled as an environment of observations: each while
iteration of performDownload reads the pass observation at the current
iteration index; clicking a matched entry reveals its detail observations
(subtitle visibility, subtitle text) and its download-page observations.
Host-library behaviour (Date parsing of the subtitle text) is the
environment function parseDate, standing for new Date(text).getTime() with
NaN mapped to none.  Filesystem effects of the download sub-flow (saveAs,
extractAllTo, unlinkSync, readdirSync) are recorded in the outcome
structure; the directory listing after extraction is an environment field.
-/

deriving instance DecidableEq for Except

/-- Bytes of a file, modelling a Node Buffer. -/
abbrev Bytes := List Nat

/-- Models the trim method of JS strings: strip leading and trailing
whitespace.  Defined over the character list so that it evaluates by
kernel reduction. -/
def jsTrim (s : String) : String :=
  ⟨((s.data.dropWhile Char.isWhitespace).reverse.dropWhile
      Char.isWhitespace).reverse⟩

/-- Models the startsWith method of JS strings. -/
def strStarts (s pre : String) : Bool := pre.data.isPrefixOf s.data

/-- Models the endsWith method of JS strings. -/
def strEnds (s suf : String) : Bool := suf.data.isSuffixOf s.data

/-- Models the toLowerCase method of JS strings. -/
def strToLower (s : String) : String := ⟨s.data.map Char.toLower⟩

/-- FileData record from file-downloader.interface.ts, as populated by
readDownloadedFiles: type INPUT, status and statusHistory null, updatedAt
the activity timestamp (milliseconds since epoch, as Date valueOf). -/
structure FileData where
  fileName : String
  filePath : String
  type : String
  status : Option String
  statusHistory : Option String
  data : Bytes
  updatedAt : Int
  deriving Repr, DecidableEq

/-- Entry of fs.readdirSync on the extraction directory, together with the
stat isFile flag and the bytes readFileSync would return. -/
structure DirEntry where
  name : String
  isFile : Bool
  data : Bytes
  deriving Repr, DecidableEq

/-- Observations of the nested download page reached from one activity
item: visibility of the dropdown Download option, success of the bounded
waitForURL navigation, textContent of each jstree file anchor, visibility
of the final download button, the download event (suggested filename if it
fired within its timeout), and the extraction result for a zip payload
(error, or the post-extraction directory listing). -/
structure DownloadPageEnv where
  downloadOptionVisible : Bool
  navigationOk : Bool
  fileEntries : List (Option String)
  finalButtonVisible : Bool
  downloadEvent : Option String
  extractionResult : Except String (List DirEntry)
  deriving Repr, DecidableEq

/-- Result of the download sub-flow for one item: the returned value of
downloadActivityFiles (none models the bare return statements that yield
undefined), whether the final batch-download button was clicked, and the
recorded filesystem effects. -/
structure DlOutcome where
  files : Option (List FileData)
  triggered : Bool
  savedPath : Option String
  deletedArchive : Option String
  extractDir : Option String
  deriving Repr, DecidableEq

/-- Outcome of the undefined-returning early exits of
downloadActivityFiles. -/
def emptyOutcome : DlOutcome :=
  { files := none, triggered := false, savedPath := none,
    deletedArchive := none, extractDir := none }

/-- Nested-file filter criteria (filesFilterConditions). -/
structure FilesFilter where
  nameSuffix : String
  deriving Repr, DecidableEq

/-- The filesFilterConditions hardcoded in performDownload. -/
def dlFilter : FilesFilter := { nameSuffix := "OptimAI.xlsx" }

/-- The fixed destination directory of download.saveAs. -/
def downloadBaseDir : String := "D:\\MayoDownload"

/-- path.join for the two-segment joins the service performs (Windows
separator, as in the hardcoded base directory). -/
def pathJoin (a b : String) : String := a ++ "\\" ++ b

/-- path.basename(name, the zip extension) for a suggested filename that
ends with .zip and carries no directory separators: drop the 4-character
extension. -/
def stripZipExt (s : String) : String :=
  ⟨s.data.take (s.data.length - 4)⟩

/-- Models text?.trim() with the or-empty fallback applied to nullable
textContent results. -/
def trimOrEmpty : Option String → String
  | some s => jsTrim s
  | none => ""

/-- Truthiness-guarded suffix test of the nested-file filter: an empty
nameSuffix is falsy in the source ternary and matches everything. -/
def matchesSuffixOf (f : FilesFilter) (name : String) : Bool :=
  if f.nameSuffix == "" then true else strEnds name f.nameSuffix

/-- readDownloadedFiles: enumerate the extraction directory, keep the
immediate regular files (stat isFile), and build one FileData per file
carrying the activity timestamp as updatedAt. -/
def readDownloadedFiles (extractDir : String) (entries : List DirEntry)
    (activityDate : Int) : List FileData :=
  entries.filterMap (fun e =>
    if e.isFile then
      some { fileName := e.name, filePath := pathJoin extractDir e.name,
             type := "INPUT", status := none, statusHistory := none,
             data := e.data, updatedAt := activityDate }
    else none)

/-- downloadActivityFiles: drive the per-item download sub-flow against
the download-page observations.  Early bare returns of the source yield
emptyOutcome; thrown steps (navigation timeout, download-event timeout,
extraction failure) yield an error that the caller rethrows. -/
def downloadActivityFiles (env : DownloadPageEnv) (f : FilesFilter)
    (activityDate : Int) : Except String DlOutcome :=
  if !env.downloadOptionVisible then Except.ok emptyOutcome
  else if !env.navigationOk then
    Except.error "Timeout waiting for download page URL"
  else if env.fileEntries.length == 0 then Except.ok emptyOutcome
  else
    let filtered := (env.fileEntries.map trimOrEmpty).filter
      (matchesSuffixOf f)
    if filtered.length == 0 then Except.ok emptyOutcome
    else if !env.finalButtonVisible then Except.ok emptyOutcome
    else
      match env.downloadEvent with
      | none => Except.error "Timeout waiting for download event"
      | some suggested =>
        let downloadPath := pathJoin downloadBaseDir suggested
        if strEnds suggested ".zip" then
          let extractDir := pathJoin downloadBaseDir (stripZipExt suggested)
          match env.extractionResult with
          | Except.error e => Except.error ("Extraction failed: " ++ e)
          | Except.ok entries =>
            Except.ok
              { files := some (readDownloadedFiles extractDir entries
                  activityDate),
                triggered := true, savedPath := some downloadPath,
                deletedArchive := some downloadPath,
                extractDir := some extractDir }
        else
          Except.ok
            { files := some [], triggered := true,
              savedPath := some downloadPath, deletedArchive := none,
              extractDir := none }

/-- Observations of one activity feed row: the two textContent reads, the
row visibility, and what opening it reveals (subtitle visibility and text,
then the download-page observations). -/
structure ActivityItem where
  subtext : Option String
  title : Option String
  visible : Bool
  subtitleVisible : Bool
  subtitleText : Option String
  downloadEnv : DownloadPageEnv
  deriving Repr, DecidableEq

/-- Observations of one while-loop pass: visibility of the activity dialog
and the currently rendered activity items. -/
structure PassObs where
  dialogVisible : Bool
  items : List ActivityItem
  deriving Repr, DecidableEq

/-- The harvest environment: pass observations indexed by loop iteration,
and the host Date parser for subtitle texts. -/
structure HarvestEnv where
  passes : Nat → PassObs
  parseDate : String → Option Int

/-- The titlePrefix of the logFilterConditions hardcoded in
performDownload. -/
def titlePat : String := "Received"

/-- Composite identity of a feed row, titleTrimmed::fileNameTrimmed. -/
def itemIdOf (it : ActivityItem) : String :=
  trimOrEmpty it.title ++ "::" ++ trimOrEmpty it.subtext

/-- Truthiness-guarded title prefix test of the entry filter. -/
def matchesTitleOf (it : ActivityItem) : Bool :=
  if titlePat == "" then true
  else strStarts (trimOrEmpty it.title) titlePat

/-- Mutable scan state of one performDownload call, extended with the
opened and downloaded traces (identities of rows that were clicked open,
and identities whose download sub-flow was run). -/
structure ScanState where
  visitedItems : List String
  scrollAttempts : Nat
  downloadCount : Nat
  finalFileData : List FileData
  opened : List String
  downloaded : List String
  iter : Nat
  deriving Repr, DecidableEq

/-- The initial scan state of a harvest call. -/
def initState : ScanState :=
  { visitedItems := [], scrollAttempts := 0, downloadCount := 0,
    finalFileData := [], opened := [], downloaded := [], iter := 0 }

/-- maxScrollAttempts of performDownload. -/
def maxScrollAttempts : Nat := 50

/-- Push the sub-flow result onto the harvest collection exactly when it
is a nonempty list (the downloadedFiles and length guard). -/
def appendNewFiles (acc : List FileData) : Option (List FileData) →
    List FileData
  | some l => if l.length > 0 then acc ++ l else acc
  | none => acc

/-- Exit of the inner for loop over the activity items of one pass:
either the items were exhausted, or the stop flag was set and the loop
broke, or one item was processed and the loop broke, or the download
sub-flow threw. -/
inductive ForStep where
  | ended (s : ScanState)
  | stopScan (s : ScanState)
  | itemDone (s : ScanState)
  | failed (e : String)
  deriving Repr, DecidableEq

/-- The for loop of one pass: skip visited identities, skip non-matching
titles, and on a title match add the identity to the visited set before
any side effect, open the row if visible, read and parse the subtitle
timestamp, stop when it is at or before the cutoff, otherwise run the
download sub-flow, push its files, bump downloadCount and reset
scrollAttempts, and break. -/
def processItems (env : HarvestEnv) (cutoff : Int) :
    List ActivityItem → ScanState → ForStep
  | [], s => ForStep.ended s
  | item :: rest, s =>
    let id := itemIdOf item
    if s.visitedItems.contains id then processItems env cutoff rest s
    else if matchesTitleOf item then
      let s1 := { s with visitedItems := id :: s.visitedItems }
      if item.visible then
        let s2 := { s1 with opened := s1.opened ++ [id] }
        if !item.subtitleVisible then processItems env cutoff rest s2
        else
          match env.parseDate (trimOrEmpty item.subtitleText) with
          | none => processItems env cutoff rest s2
          | some t =>
            if t ≤ cutoff then ForStep.stopScan s2
            else
              match downloadActivityFiles item.downloadEnv dlFilter t with
              | Except.error e => ForStep.failed e
              | Except.ok out =>
                ForStep.itemDone
                  { s2 with
                    downloaded := s2.downloaded ++ [id],
                    finalFileData := appendNewFiles s2.finalFileData
                      out.files,
                    downloadCount := s2.downloadCount + 1,
                    scrollAttempts := 0 }
      else processItems env cutoff rest s1
    else processItems env cutoff rest s

/-- The while loop of performDownload, fuel-indexed (none means the fuel
ran out before the loop exited).  An invisible dialog retries the pass
without touching scrollAttempts; zero rendered items breaks; a stop
signal breaks; otherwise the pass ends with the end-of-pass scroll that
increments scrollAttempts. -/
def runScan (env : HarvestEnv) (cutoff : Int) :
    Nat → ScanState → Option (Except String ScanState)
  | 0, _ => none
  | fuel + 1, s =>
    if s.scrollAttempts < maxScrollAttempts then
      let pass := env.passes s.iter
      if !pass.dialogVisible then
        runScan env cutoff fuel { s with iter := s.iter + 1 }
      else if pass.items.length == 0 then some (Except.ok s)
      else
        match processItems env cutoff pass.items s with
        | ForStep.stopScan s1 => some (Except.ok s1)
        | ForStep.failed e =>
          some (Except.error ("Download failed: " ++ e))
        | ForStep.itemDone s1 =>
          runScan env cutoff fuel
            { s1 with scrollAttempts := s1.scrollAttempts + 1,
                      iter := s1.iter + 1 }
        | ForStep.ended s1 =>
          runScan env cutoff fuel
            { s1 with scrollAttempts := s1.scrollAttempts + 1,
                      iter := s1.iter + 1 }
    else some (Except.ok s)

/-- performDownload: run the scan from the initial state and return the
accumulated file data (or the wrapped error of a failed step). -/
def performDownload (env : HarvestEnv) (cutoff : Int) (fuel : Nat) :
    Option (Except String (List FileData)) :=
  (runScan env cutoff fuel initState).map
    (fun r => r.map (fun s => s.finalFileData))

/-- Substring test over character lists. -/
def hasSubList (pat : List Char) : List Char → Bool
  | [] => pat.isEmpty
  | c :: cs => pat.isPrefixOf (c :: cs) || hasSubList pat cs

/-- Models the includes test of the upload fallback path. -/
def strIncludes (s pat : String) : Bool := hasSubList pat.toList s.toList

/-- The truthiness-and-error-text condition of the upload fallback path:
a non-null, nonempty message whose lowercasing contains error. -/
def isErrorLike (m : String) : Bool :=
  !(m == "") && strIncludes (strToLower m) "error"

/-- Whether the probed generic error locations show error-like text. -/
def errorProbe : Option String → Bool
  | some m => isErrorLike m
  | none => false

/-- Observations of the upload completion monitor: whether the progress
details selector appeared within its timeout, whether the terminal-marker
polling succeeded within its timeout, and the textContent of the first
generic error-indicator location (none when the catch yielded null). -/
structure UploadEnv where
  progressDetailsVisible : Bool
  monitorCompleted : Bool
  statusText : Option String
  deriving Repr, DecidableEq

/-- waitForUploadCompletion: succeed when the indicator appeared and the
polling found a terminal marker; otherwise fall back to probing the
generic error locations, failing exactly on error-like text and
optimistically succeeding otherwise. -/
def waitForUploadCompletion (env : UploadEnv) : Except String Unit :=
  if env.progressDetailsVisible && env.monitorCompleted then Except.ok ()
  else
    match env.statusText with
    | some m =>
      if isErrorLike m then Except.error ("Transfer failed: " ++ m)
      else Except.ok ()
    | none => Except.ok ()


/-- State change of opening a matched, unvisited, visible row: the
identity goes into the visited set (before any side effect) and into the
opened trace (the click). -/
def openState (s : ScanState) (item : ActivityItem) : ScanState :=
  { s with visitedItems := itemIdOf item :: s.visitedItems,
           opened := s.opened ++ [itemIdOf item] }

/-- State change of fully processing a matched row whose download
sub-flow returned out: record the download, push the files, bump
downloadCount, reset scrollAttempts. -/
def doneState (s : ScanState) (item : ActivityItem) (out : DlOutcome) :
    ScanState :=
  { openState s item with
    downloaded := s.downloaded ++ [itemIdOf item],
    finalFileData := appendNewFiles s.finalFileData out.files,
    downloadCount := s.downloadCount + 1,
    scrollAttempts := 0 }

theorem processItems_visited (env : HarvestEnv) (cutoff : Int)
    (item : ActivityItem) (rest : List ActivityItem) (s : ScanState)
    (h : s.visitedItems.contains (itemIdOf item) = true) :
    processItems env cutoff (item :: rest) s =
      processItems env cutoff rest s := by
  have h2 : itemIdOf item ∈ s.visitedItems := by simpa using h
  simp [processItems, h2]

theorem processItems_noMatch (env : HarvestEnv) (cutoff : Int)
    (item : ActivityItem) (rest : List ActivityItem) (s : ScanState)
    (hnv : s.visitedItems.contains (itemIdOf item) = false)
    (hm : matchesTitleOf item = false) :
    processItems env cutoff (item :: rest) s =
      processItems env cutoff rest s := by
  have h2 : itemIdOf item ∉ s.visitedItems := by simpa using hnv
  simp [processItems, h2, hm]

theorem processItems_notVisible (env : HarvestEnv) (cutoff : Int)
    (item : ActivityItem) (rest : List ActivityItem) (s : ScanState)
    (hnv : s.visitedItems.contains (itemIdOf item) = false)
    (hm : matchesTitleOf item = true)
    (hv : item.visible = false) :
    processItems env cutoff (item :: rest) s =
      processItems env cutoff rest
        { s with visitedItems := itemIdOf item :: s.visitedItems } := by
  have h2 : itemIdOf item ∉ s.visitedItems := by simpa using hnv
  simp [processItems, h2, hm, hv]

theorem processItems_noSubtitle (env : HarvestEnv) (cutoff : Int)
    (item : ActivityItem) (rest : List ActivityItem) (s : ScanState)
    (hnv : s.visitedItems.contains (itemIdOf item) = false)
    (hm : matchesTitleOf item = true)
    (hv : item.visible = true)
    (hsv : item.subtitleVisible = false) :
    processItems env cutoff (item :: rest) s =
      processItems env cutoff rest (openState s item) := by
  have h2 : itemIdOf item ∉ s.visitedItems := by simpa using hnv
  simp [processItems, openState, h2, hm, hv, hsv]

theorem processItems_parseFail (env : HarvestEnv) (cutoff : Int)
    (item : ActivityItem) (rest : List ActivityItem) (s : ScanState)
    (hnv : s.visitedItems.contains (itemIdOf item) = false)
    (hm : matchesTitleOf item = true)
    (hv : item.visible = true)
    (hsv : item.subtitleVisible = true)
    (hp : env.parseDate (trimOrEmpty item.subtitleText) = none) :
    processItems env cutoff (item :: rest) s =
      processItems env cutoff rest (openState s item) := by
  have h2 : itemIdOf item ∉ s.visitedItems := by simpa using hnv
  simp [processItems, openState, h2, hm, hv, hsv, hp]

theorem processItems_stop (env : HarvestEnv) (cutoff : Int)
    (item : ActivityItem) (rest : List ActivityItem) (s : ScanState)
    (t : Int)
    (hnv : s.visitedItems.contains (itemIdOf item) = false)
    (hm : matchesTitleOf item = true)
    (hv : item.visible = true)
    (hsv : item.subtitleVisible = true)
    (hp : env.parseDate (trimOrEmpty item.subtitleText) = some t)
    (ht : t ≤ cutoff) :
    processItems env cutoff (item :: rest) s =
      ForStep.stopScan (openState s item) := by
  have h2 : itemIdOf item ∉ s.visitedItems := by simpa using hnv
  simp [processItems, openState, h2, hm, hv, hsv, hp, ht]

theorem processItems_done (env : HarvestEnv) (cutoff : Int)
    (item : ActivityItem) (rest : List ActivityItem) (s : ScanState)
    (t : Int) (out : DlOutcome)
    (hnv : s.visitedItems.contains (itemIdOf item) = false)
    (hm : matchesTitleOf item = true)
    (hv : item.visible = true)
    (hsv : item.subtitleVisible = true)
    (hp : env.parseDate (trimOrEmpty item.subtitleText) = some t)
    (ht : ¬ t ≤ cutoff)
    (hd : downloadActivityFiles item.downloadEnv dlFilter t =
      Except.ok out) :
    processItems env cutoff (item :: rest) s =
      ForStep.itemDone (doneState s item out) := by
  have h2 : itemIdOf item ∉ s.visitedItems := by simpa using hnv
  simp [processItems, openState, doneState, h2, hm, hv, hsv, hp, ht, hd]

theorem processItems_dlError (env : HarvestEnv) (cutoff : Int)
    (item : ActivityItem) (rest : List ActivityItem) (s : ScanState)
    (t : Int) (e : String)
    (hnv : s.visitedItems.contains (itemIdOf item) = false)
    (hm : matchesTitleOf item = true)
    (hv : item.visible = true)
    (hsv : item.subtitleVisible = true)
    (hp : env.parseDate (trimOrEmpty item.subtitleText) = some t)
    (ht : ¬ t ≤ cutoff)
    (hd : downloadActivityFiles item.downloadEnv dlFilter t =
      Except.error e) :
    processItems env cutoff (item :: rest) s = ForStep.failed e := by
  have h2 : itemIdOf item ∉ s.visitedItems := by simpa using hnv
  simp [processItems, h2, hm, hv, hsv, hp, ht, hd]

theorem processItems_skip (env : HarvestEnv) (cutoff : Int)
    (l₁ l₂ : List ActivityItem) (s : ScanState)
    (h : ∀ it ∈ l₁, s.visitedItems.contains (itemIdOf it) = true) :
    processItems env cutoff (l₁ ++ l₂) s =
      processItems env cutoff l₂ s := by
  induction l₁ with
  | nil => rfl
  | cons a l ih =>
    rw [List.cons_append,
      processItems_visited env cutoff a (l ++ l₂) s
        (h a (List.mem_cons_self a l))]
    exact ih (fun it hit => h it (List.mem_cons_of_mem a hit))

theorem runScan_cap (env : HarvestEnv) (cutoff : Int) (fuel : Nat)
    (s : ScanState) (h : ¬ s.scrollAttempts < maxScrollAttempts) :
    runScan env cutoff (fuel + 1) s = some (Except.ok s) := by
  simp [runScan, h]

theorem runScan_invisible (env : HarvestEnv) (cutoff : Int) (fuel : Nat)
    (s : ScanState) (h : s.scrollAttempts < maxScrollAttempts)
    (hd : (env.passes s.iter).dialogVisible = false) :
    runScan env cutoff (fuel + 1) s =
      runScan env cutoff fuel { s with iter := s.iter + 1 } := by
  simp [runScan, h, hd]

theorem runScan_emptyPass (env : HarvestEnv) (cutoff : Int) (fuel : Nat)
    (s : ScanState) (h : s.scrollAttempts < maxScrollAttempts)
    (hd : (env.passes s.iter).dialogVisible = true)
    (hi : (env.passes s.iter).items = []) :
    runScan env cutoff (fuel + 1) s = some (Except.ok s) := by
  simp [runScan, h, hd, hi]

theorem runScan_stopPass (env : HarvestEnv) (cutoff : Int) (fuel : Nat)
    (s s1 : ScanState) (h : s.scrollAttempts < maxScrollAttempts)
    (hd : (env.passes s.iter).dialogVisible = true)
    (hi : (env.passes s.iter).items ≠ [])
    (hp : processItems env cutoff (env.passes s.iter).items s =
      ForStep.stopScan s1) :
    runScan env cutoff (fuel + 1) s = some (Except.ok s1) := by
  simp [runScan, h, hd, List.length_eq_zero, hi, hp]

theorem runScan_failPass (env : HarvestEnv) (cutoff : Int) (fuel : Nat)
    (s : ScanState) (e : String)
    (h : s.scrollAttempts < maxScrollAttempts)
    (hd : (env.passes s.iter).dialogVisible = true)
    (hi : (env.passes s.iter).items ≠ [])
    (hp : processItems env cutoff (env.passes s.iter).items s =
      ForStep.failed e) :
    runScan env cutoff (fuel + 1) s =
      some (Except.error ("Download failed: " ++ e)) := by
  simp [runScan, h, hd, List.length_eq_zero, hi, hp]

theorem runScan_donePass (env : HarvestEnv) (cutoff : Int) (fuel : Nat)
    (s s1 : ScanState) (h : s.scrollAttempts < maxScrollAttempts)
    (hd : (env.passes s.iter).dialogVisible = true)
    (hi : (env.passes s.iter).items ≠ [])
    (hp : processItems env cutoff (env.passes s.iter).items s =
      ForStep.itemDone s1) :
    runScan env cutoff (fuel + 1) s =
      runScan env cutoff fuel
        { s1 with scrollAttempts := s1.scrollAttempts + 1,
                  iter := s1.iter + 1 } := by
  simp [runScan, h, hd, List.length_eq_zero, hi, hp]

theorem runScan_endedPass (env : HarvestEnv) (cutoff : Int) (fuel : Nat)
    (s s1 : ScanState) (h : s.scrollAttempts < maxScrollAttempts)
    (hd : (env.passes s.iter).dialogVisible = true)
    (hi : (env.passes s.iter).items ≠ [])
    (hp : processItems env cutoff (env.passes s.iter).items s =
      ForStep.ended s1) :
    runScan env cutoff (fuel + 1) s =
      runScan env cutoff fuel
        { s1 with scrollAttempts := s1.scrollAttempts + 1,
                  iter := s1.iter + 1 } := by
  simp [runScan, h, hd, List.length_eq_zero, hi, hp]

/-- A download-page observation in which the dropdown Download option is
absent, so the sub-flow exits with the undefined outcome. -/
def dEnvAbsent : DownloadPageEnv :=
  { downloadOptionVisible := false, navigationOk := true,
    fileEntries := [], finalButtonVisible := false,
    downloadEvent := none, extractionResult := Except.ok [] }

theorem readDownloadedFiles_length (dir : String)
    (entries : List DirEntry) (t : Int) :
    (readDownloadedFiles dir entries t).length =
      (entries.filter (fun e => e.isFile)).length := by
  induction entries with
  | nil => rfl
  | cons e tl ih =>
    cases he : e.isFile <;>
      simp [readDownloadedFiles, List.filterMap_cons, he, List.filter,
        ih, readDownloadedFiles] at ih ⊢

theorem readDownloadedFiles_updatedAt (dir : String)
    (entries : List DirEntry) (t : Int) :
    ∀ fd ∈ readDownloadedFiles dir entries t, fd.updatedAt = t := by
  intro fd hfd
  simp only [readDownloadedFiles, List.mem_filterMap] at hfd
  obtain ⟨e, _, he⟩ := hfd
  by_cases h : e.isFile = true
  · rw [if_pos h] at he
    cases he
    rfl
  · rw [if_neg h] at he
    cases he

/-- C7: when the detail timestamp text of a matched, opened entry does
not parse as a date, the entry is skipped (after being marked visited and
opened) and the for loop continues with the remaining entries; the
outcome is neither a stop signal nor an error of the harvest call. -/
theorem parseFailureSkipsEntry (env : HarvestEnv) (cutoff : Int)
    (item : ActivityItem) (rest : List ActivityItem) (s : ScanState)
    (hnv : s.visitedItems.contains (itemIdOf item) = false)
    (hm : matchesTitleOf item = true)
    (hv : item.visible = true)
    (hsv : item.subtitleVisible = true)
    (hp : env.parseDate (trimOrEmpty item.subtitleText) = none) :
    processItems env cutoff (item :: rest) s =
      processItems env cutoff rest (openState s item) :=
  processItems_parseFail env cutoff item rest s hnv hm hv hsv hp

/-- Sample entry whose subtitle text does not parse as a date under the
sample environment. -/
def itemGarbage : ActivityItem :=
  { subtext := some "a", title := some "Received A", visible := true,
    subtitleVisible := true, subtitleText := some "not a date",
    downloadEnv := dEnvAbsent }

/-- Sample environment whose Date parser rejects every text. -/
def envNoParse : HarvestEnv :=
  { passes := fun _ => { dialogVisible := true, items := [itemGarbage] },
    parseDate := fun _ => none }

theorem parseFailureSkipsEntry_witness :
    processItems envNoParse 0 (itemGarbage :: []) initState =
      processItems envNoParse 0 [] (openState initState itemGarbage) :=
  parseFailureSkipsEntry envNoParse 0 itemGarbage [] initState
    (by decide) (by decide) rfl rfl rfl

/-- C10: a matched, visible entry whose parsed detail timestamp is newer
than the cutoff still bumps downloadCount and resets scrollAttempts to
zero even when its download sub-flow returns no files (undefined or an
empty list); the harvest collection is unchanged for that item. -/
theorem zeroFileItemStillCounts (env : HarvestEnv) (cutoff : Int)
    (item : ActivityItem) (rest : List ActivityItem) (s : ScanState)
    (t : Int) (out : DlOutcome)
    (hnv : s.visitedItems.contains (itemIdOf item) = false)
    (hm : matchesTitleOf item = true)
    (hv : item.visible = true)
    (hsv : item.subtitleVisible = true)
    (hp : env.parseDate (trimOrEmpty item.subtitleText) = some t)
    (ht : ¬ t ≤ cutoff)
    (hd : downloadActivityFiles item.downloadEnv dlFilter t =
      Except.ok out)
    (hnf : out.files = none ∨ out.files = some []) :
    processItems env cutoff (item :: rest) s =
      ForStep.itemDone
        { openState s item with
          downloaded := s.downloaded ++ [itemIdOf item],
          finalFileData := s.finalFileData,
          downloadCount := s.downloadCount + 1,
          scrollAttempts := 0 } := by
  rw [processItems_done env cutoff item rest s t out hnv hm hv hsv hp ht
    hd]
  have hfd : appendNewFiles s.finalFileData out.files = s.finalFileData := by
    rcases hnf with hnf | hnf <;> rw [hnf] <;> rfl
  simp [doneState, hfd]

/-- Sample entry whose download sub-flow yields the undefined outcome. -/
def itemZeroFiles : ActivityItem :=
  { subtext := some "z", title := some "Received Z", visible := true,
    subtitleVisible := true, subtitleText := some "ts",
    downloadEnv := dEnvAbsent }

/-- Sample environment whose Date parser always yields 5. -/
def envParseFive : HarvestEnv :=
  { passes := fun _ => { dialogVisible := true, items := [itemZeroFiles] },
    parseDate := fun _ => some 5 }

theorem zeroFileItemStillCounts_witness :
    processItems envParseFive 0 (itemZeroFiles :: []) initState =
      ForStep.itemDone
        { openState initState itemZeroFiles with
          downloaded := initState.downloaded ++ [itemIdOf itemZeroFiles],
          finalFileData := initState.finalFileData,
          downloadCount := initState.downloadCount + 1,
          scrollAttempts := 0 } :=
  zeroFileItemStillCounts envParseFive 0 itemZeroFiles [] initState 5
    emptyOutcome (by decide) (by decide) rfl rfl rfl (by decide) rfl
    (Or.inl rfl)

/-- C8: when no nested file matches the name suffix, or the final
download button is absent, the item yields the undefined outcome: no
batch download is triggered, no error is raised, and appending the
outcome to the harvest collection leaves it unchanged. -/
theorem selectionFailureYieldsNoFiles (env : DownloadPageEnv)
    (f : FilesFilter) (t : Int)
    (h1 : env.downloadOptionVisible = true)
    (h2 : env.navigationOk = true)
    (h3 : (env.fileEntries.map trimOrEmpty).filter (matchesSuffixOf f)
        = [] ∨ env.finalButtonVisible = false) :
    downloadActivityFiles env f t = Except.ok emptyOutcome ∧
    emptyOutcome.files = none ∧
    emptyOutcome.triggered = false ∧
    ∀ acc : List FileData, appendNewFiles acc emptyOutcome.files = acc := by
  refine ⟨?_, rfl, rfl, fun acc => rfl⟩
  unfold downloadActivityFiles
  rw [h1, h2]
  by_cases he : env.fileEntries.length = 0
  · simp [he]
  · rcases h3 with h3 | h3
    · simp [he, h3]
    · by_cases hf :
        ((env.fileEntries.map trimOrEmpty).filter
          (matchesSuffixOf f)).length = 0
      · simp [he, hf]
      · simp [he, hf, h3]

/-- Sample download-page observations whose single nested file fails the
suffix filter. -/
def dEnvNoMatch : DownloadPageEnv :=
  { downloadOptionVisible := true, navigationOk := true,
    fileEntries := [some "b.csv"], finalButtonVisible := true,
    downloadEvent := none, extractionResult := Except.ok [] }

theorem selectionFailureYieldsNoFiles_witness :
    downloadActivityFiles dEnvNoMatch dlFilter 5 = Except.ok emptyOutcome ∧
    emptyOutcome.files = none ∧
    emptyOutcome.triggered = false ∧
    ∀ acc : List FileData, appendNewFiles acc emptyOutcome.files = acc :=
  selectionFailureYieldsNoFiles dEnvNoMatch dlFilter 5 rfl rfl
    (Or.inl (by decide))

/-- C5: under a completed download, a non-zip payload yields the
empty record list (and no extraction or deletion), while a zip payload
yields exactly one record per immediate regular file of the extraction
directory named after the archive stem, each stamped with the triggering
activity timestamp; the archive itself is deleted. -/
theorem archiveDirectAsymmetry (env : DownloadPageEnv) (f : FilesFilter)
    (t : Int) (name : String)
    (h1 : env.downloadOptionVisible = true)
    (h2 : env.navigationOk = true)
    (h3 : (env.fileEntries.map trimOrEmpty).filter (matchesSuffixOf f)
        ≠ [])
    (h4 : env.finalButtonVisible = true)
    (h5 : env.downloadEvent = some name) :
    (strEnds name ".zip" = false →
      downloadActivityFiles env f t = Except.ok
        { files := some [], triggered := true,
          savedPath := some (pathJoin downloadBaseDir name),
          deletedArchive := none, extractDir := none }) ∧
    (∀ entries, strEnds name ".zip" = true →
      env.extractionResult = Except.ok entries →
      downloadActivityFiles env f t = Except.ok
        { files := some (readDownloadedFiles
            (pathJoin downloadBaseDir (stripZipExt name)) entries t),
          triggered := true,
          savedPath := some (pathJoin downloadBaseDir name),
          deletedArchive := some (pathJoin downloadBaseDir name),
          extractDir := some (pathJoin downloadBaseDir
            (stripZipExt name)) } ∧
      (readDownloadedFiles (pathJoin downloadBaseDir (stripZipExt name))
          entries t).length =
        (entries.filter (fun e => e.isFile)).length ∧
      ∀ fd ∈ readDownloadedFiles
          (pathJoin downloadBaseDir (stripZipExt name)) entries t,
        fd.updatedAt = t) := by
  have he : ¬ env.fileEntries.length = 0 := by
    intro h
    rw [List.length_eq_zero] at h
    exact h3 (by simp [h])
  have hf : ¬ ((env.fileEntries.map trimOrEmpty).filter
      (matchesSuffixOf f)).length = 0 := by
    rw [List.length_eq_zero]
    exact h3
  constructor
  · intro hz
    unfold downloadActivityFiles
    rw [h1, h2, h5]
    simp [he, hf, h4, hz]
  · intro entries hz hx
    refine ⟨?_,
      readDownloadedFiles_length _ entries t,
      readDownloadedFiles_updatedAt _ entries t⟩
    unfold downloadActivityFiles
    rw [h1, h2, h5]
    simp [he, hf, h4, hz, hx]

/-- Sample download-page observations for a completed zip download with
one extracted regular file and one subdirectory. -/
def dEnvZip : DownloadPageEnv :=
  { downloadOptionVisible := true, navigationOk := true,
    fileEntries := [some "a_OptimAI.xlsx"], finalButtonVisible := true,
    downloadEvent := some "bundle.zip",
    extractionResult := Except.ok
      [ { name := "x.xlsx", isFile := true, data := [1, 2] },
        { name := "sub", isFile := false, data := [] } ] }

theorem archiveDirectAsymmetry_witness :
    (strEnds "bundle.zip" ".zip" = false →
      downloadActivityFiles dEnvZip dlFilter 9 = Except.ok
        { files := some [], triggered := true,
          savedPath := some (pathJoin downloadBaseDir "bundle.zip"),
          deletedArchive := none, extractDir := none }) ∧
    (∀ entries, strEnds "bundle.zip" ".zip" = true →
      dEnvZip.extractionResult = Except.ok entries →
      downloadActivityFiles dEnvZip dlFilter 9 = Except.ok
        { files := some (readDownloadedFiles
            (pathJoin downloadBaseDir (stripZipExt "bundle.zip"))
            entries 9),
          triggered := true,
          savedPath := some (pathJoin downloadBaseDir "bundle.zip"),
          deletedArchive := some (pathJoin downloadBaseDir "bundle.zip"),
          extractDir := some (pathJoin downloadBaseDir
            (stripZipExt "bundle.zip")) } ∧
      (readDownloadedFiles
          (pathJoin downloadBaseDir (stripZipExt "bundle.zip"))
          entries 9).length =
        (entries.filter (fun e => e.isFile)).length ∧
      ∀ fd ∈ readDownloadedFiles
          (pathJoin downloadBaseDir (stripZipExt "bundle.zip"))
          entries 9,
        fd.updatedAt = 9) :=
  archiveDirectAsymmetry dEnvZip dlFilter 9 "bundle.zip" rfl rfl
    (by decide) rfl rfl

/-- C9: on the fallback path (the progress indicator never appeared, or
the terminal-marker polling failed), the upload completion monitor fails
exactly when the probed generic error locations hold error-like text, and
otherwise returns success. -/
theorem uploadFallbackOptimistic (env : UploadEnv)
    (h : env.progressDetailsVisible = false ∨ env.monitorCompleted = false) :
    ((∃ e, waitForUploadCompletion env = Except.error e) ↔
      errorProbe env.statusText = true) ∧
    (errorProbe env.statusText = false →
      waitForUploadCompletion env = Except.ok ()) := by
  have hb : (env.progressDetailsVisible && env.monitorCompleted) = false := by
    rcases h with h | h <;> simp [h]
  have hw : waitForUploadCompletion env =
      match env.statusText with
      | some m =>
        if isErrorLike m then Except.error ("Transfer failed: " ++ m)
        else Except.ok ()
      | none => Except.ok () := by
    unfold waitForUploadCompletion
    rw [hb]
    simp
  cases hst : env.statusText with
  | none =>
    rw [hst] at hw
    simp [hw, errorProbe]
  | some m =>
    rw [hst] at hw
    cases he : isErrorLike m
    · simp [hw, he, errorProbe]
    · simp [hw, he, errorProbe]

/-- Sample upload observations: no progress indicator, and an error-like
status text at the probed locations. -/
def upEnvErr : UploadEnv :=
  { progressDetailsVisible := false, monitorCompleted := false,
    statusText := some "Upload Error: disk full" }

theorem uploadFallbackOptimistic_witness :
    ((∃ e, waitForUploadCompletion upEnvErr = Except.error e) ↔
      errorProbe upEnvErr.statusText = true) ∧
    (errorProbe upEnvErr.statusText = false →
      waitForUploadCompletion upEnvErr = Except.ok ()) :=
  uploadFallbackOptimistic upEnvErr (Or.inl rfl)

/-- Sample matched activity row wired to a given download-page
observation. -/
def itemWith (d : DownloadPageEnv) : ActivityItem :=
  { subtext := some "f", title := some "Received F", visible := true,
    subtitleVisible := true, subtitleText := some "ts",
    downloadEnv := d }

/-- Sample harvest environment with a single fresh matching row whose
subtitle parses to the given timestamp. -/
def oneItemEnv (d : DownloadPageEnv) (t : Int) : HarvestEnv :=
  { passes := fun _ => { dialogVisible := true, items := [itemWith d] },
    parseDate := fun _ => some t }

/-- C6: a navigation timeout on the way to the download page, and an
extraction failure of a zip payload, each surface as an error of the
download sub-flow; any such error propagates through performDownload as
an error of the entire harvest call. -/
theorem itemFailureAbortsHarvest :
    (∀ (d : DownloadPageEnv) (f : FilesFilter) (t : Int),
      d.downloadOptionVisible = true → d.navigationOk = false →
      downloadActivityFiles d f t =
        Except.error "Timeout waiting for download page URL") ∧
    (∀ (d : DownloadPageEnv) (f : FilesFilter) (t : Int)
      (name e : String),
      d.downloadOptionVisible = true → d.navigationOk = true →
      (d.fileEntries.map trimOrEmpty).filter (matchesSuffixOf f) ≠ [] →
      d.finalButtonVisible = true → d.downloadEvent = some name →
      strEnds name ".zip" = true →
      d.extractionResult = Except.error e →
      downloadActivityFiles d f t =
        Except.error ("Extraction failed: " ++ e)) ∧
    (∀ (d : DownloadPageEnv) (t cutoff : Int) (e : String) (fuel : Nat),
      downloadActivityFiles d dlFilter t = Except.error e →
      ¬ t ≤ cutoff →
      performDownload (oneItemEnv d t) cutoff (fuel + 1) =
        some (Except.error ("Download failed: " ++ e))) := by
  refine ⟨?_, ?_, ?_⟩
  · intro d f t h1 h2
    simp [downloadActivityFiles, h1, h2]
  · intro d f t name e h1 h2 h3 h4 h5 hz hx
    have he : ¬ d.fileEntries.length = 0 := by
      intro h
      rw [List.length_eq_zero] at h
      exact h3 (by simp [h])
    have hf : ¬ ((d.fileEntries.map trimOrEmpty).filter
        (matchesSuffixOf f)).length = 0 := by
      rw [List.length_eq_zero]
      exact h3
    unfold downloadActivityFiles
    rw [h1, h2, h5]
    simp [he, hf, h4, hz, hx]
  · intro d t cutoff e fuel hd ht
    have hfail : processItems (oneItemEnv d t) cutoff
        ((oneItemEnv d t).passes initState.iter).items initState =
        ForStep.failed e :=
      processItems_dlError (oneItemEnv d t) cutoff (itemWith d) []
        initState t e rfl rfl rfl rfl rfl ht hd
    have hrun : runScan (oneItemEnv d t) cutoff (fuel + 1) initState =
        some (Except.error ("Download failed: " ++ e)) :=
      runScan_failPass (oneItemEnv d t) cutoff fuel initState e
        (by decide) rfl (List.cons_ne_nil _ _) hfail
    unfold performDownload
    rw [hrun]
    rfl

/-- Sample download-page observations whose bounded navigation wait times
out. -/
def dEnvNavFail : DownloadPageEnv :=
  { downloadOptionVisible := true, navigationOk := false,
    fileEntries := [], finalButtonVisible := false,
    downloadEvent := none, extractionResult := Except.ok [] }

theorem itemFailureAbortsHarvest_witness :
    performDownload (oneItemEnv dEnvNavFail 5) 0 1 =
      some (Except.error
        ("Download failed: " ++ "Timeout waiting for download page URL")) :=
  itemFailureAbortsHarvest.2.2 dEnvNavFail 5 0
    "Timeout waiting for download page URL" 0 rfl (by decide)

/-- Scan invariant backing idempotent visitation: the opened and
downloaded traces are duplicate-free and only hold identities already in
the visited set. -/
def ScanInv (s : ScanState) : Prop :=
  s.opened.Nodup ∧ s.downloaded.Nodup ∧
  (∀ id ∈ s.opened, id ∈ s.visitedItems) ∧
  (∀ id ∈ s.downloaded, id ∈ s.visitedItems)

theorem scanInv_open (s : ScanState) (item : ActivityItem)
    (hs : ScanInv s) (h : itemIdOf item ∉ s.visitedItems) :
    ScanInv (openState s item) := by
  obtain ⟨h1, h2, h3, h4⟩ := hs
  simp only [ScanInv, openState]
  refine ⟨?_, h2, ?_, fun id hid => List.mem_cons_of_mem _ (h4 id hid)⟩
  · rw [List.nodup_append]
    refine ⟨h1, List.nodup_singleton _, ?_⟩
    intro a ha hb
    rw [List.mem_singleton] at hb
    subst hb
    exact h (h3 _ ha)
  · intro id hid
    rw [List.mem_append, List.mem_singleton] at hid
    rcases hid with hid | hid
    · exact List.mem_cons_of_mem _ (h3 id hid)
    · subst hid
      exact List.mem_cons_self _ _

theorem scanInv_done (s : ScanState) (item : ActivityItem)
    (out : DlOutcome) (hs : ScanInv s)
    (h : itemIdOf item ∉ s.visitedItems) :
    ScanInv (doneState s item out) := by
  obtain ⟨ho, hd, hov, hdv⟩ := scanInv_open s item hs h
  simp only [ScanInv, openState, doneState] at ho hov ⊢
  obtain ⟨_, h2, _, h4⟩ := hs
  refine ⟨ho, ?_, hov, ?_⟩
  · rw [List.nodup_append]
    refine ⟨h2, List.nodup_singleton _, ?_⟩
    intro a ha hb
    rw [List.mem_singleton] at hb
    subst hb
    exact h (h4 _ ha)
  · intro id hid
    rw [List.mem_append, List.mem_singleton] at hid
    rcases hid with hid | hid
    · exact List.mem_cons_of_mem _ (h4 id hid)
    · subst hid
      exact List.mem_cons_self _ _

theorem processItems_inv (env : HarvestEnv) (cutoff : Int) :
    ∀ (items : List ActivityItem) (s s' : ScanState), ScanInv s →
      (processItems env cutoff items s = ForStep.ended s' ∨
       processItems env cutoff items s = ForStep.stopScan s' ∨
       processItems env cutoff items s = ForStep.itemDone s') →
      ScanInv s' := by
  intro items
  induction items with
  | nil =>
    intro s s' hs hstep
    rcases hstep with h | h | h <;>
      simp only [processItems] at h <;> cases h
    exact hs
  | cons item rest ih =>
    intro s s' hs hstep
    by_cases hnv : s.visitedItems.contains (itemIdOf item) = true
    · rw [processItems_visited env cutoff item rest s hnv] at hstep
      exact ih s s' hs hstep
    · have hnv2 : s.visitedItems.contains (itemIdOf item) = false := by
        cases hx : s.visitedItems.contains (itemIdOf item)
        · rfl
        · exact absurd hx hnv
      have hmem : itemIdOf item ∉ s.visitedItems := by simpa using hnv2
      by_cases hm : matchesTitleOf item = true
      · by_cases hv : item.visible = true
        · by_cases hsv : item.subtitleVisible = true
          · cases hp : env.parseDate (trimOrEmpty item.subtitleText) with
            | none =>
              rw [processItems_parseFail env cutoff item rest s hnv2 hm
                hv hsv hp] at hstep
              exact ih _ s' (scanInv_open s item hs hmem) hstep
            | some t =>
              by_cases ht : t ≤ cutoff
              · rw [processItems_stop env cutoff item rest s t hnv2 hm
                  hv hsv hp ht] at hstep
                rcases hstep with h | h | h <;> cases h
                exact scanInv_open s item hs hmem
              · cases hdl : downloadActivityFiles item.downloadEnv
                  dlFilter t with
                | error e =>
                  rw [processItems_dlError env cutoff item rest s t e
                    hnv2 hm hv hsv hp ht hdl] at hstep
                  rcases hstep with h | h | h <;> cases h
                | ok out =>
                  rw [processItems_done env cutoff item rest s t out
                    hnv2 hm hv hsv hp ht hdl] at hstep
                  rcases hstep with h | h | h <;> cases h
                  exact scanInv_done s item out hs hmem
          · have hsv2 : item.subtitleVisible = false := by
              cases hx : item.subtitleVisible
              · rfl
              · exact absurd hx hsv
            rw [processItems_noSubtitle env cutoff item rest s hnv2 hm
              hv hsv2] at hstep
            exact ih _ s' (scanInv_open s item hs hmem) hstep
        · have hv2 : item.visible = false := by
            cases hx : item.visible
            · rfl
            · exact absurd hx hv
          rw [processItems_notVisible env cutoff item rest s hnv2 hm
            hv2] at hstep
          refine ih _ s' ?_ hstep
          obtain ⟨h1, h2, h3, h4⟩ := hs
          exact ⟨h1, h2,
            fun id hid => List.mem_cons_of_mem _ (h3 id hid),
            fun id hid => List.mem_cons_of_mem _ (h4 id hid)⟩
      · have hm2 : matchesTitleOf item = false := by
          cases hx : matchesTitleOf item
          · rfl
          · exact absurd hx hm
        rw [processItems_noMatch env cutoff item rest s hnv2 hm2]
          at hstep
        exact ih s s' hs hstep

theorem runScan_inv (env : HarvestEnv) (cutoff : Int) :
    ∀ (fuel : Nat) (s s' : ScanState), ScanInv s →
      runScan env cutoff fuel s = some (Except.ok s') → ScanInv s' := by
  intro fuel
  induction fuel with
  | zero =>
    intro s s' _ h
    simp [runScan] at h
  | succ fuel ih =>
    intro s s' hs h
    by_cases hc : s.scrollAttempts < maxScrollAttempts
    · by_cases hd : (env.passes s.iter).dialogVisible = true
      · by_cases hi : (env.passes s.iter).items = []
        · rw [runScan_emptyPass env cutoff fuel s hc hd hi] at h
          cases h
          exact hs
        · cases hstep : processItems env cutoff
            (env.passes s.iter).items s with
          | ended s1 =>
            rw [runScan_endedPass env cutoff fuel s s1 hc hd hi hstep]
              at h
            exact ih
              { s1 with scrollAttempts := s1.scrollAttempts + 1,
                        iter := s1.iter + 1 } s'
              (processItems_inv env cutoff _ s s1 hs (Or.inl hstep)) h
          | stopScan s1 =>
            rw [runScan_stopPass env cutoff fuel s s1 hc hd hi hstep]
              at h
            cases h
            exact processItems_inv env cutoff _ s s' hs
              (Or.inr (Or.inl hstep))
          | itemDone s1 =>
            rw [runScan_donePass env cutoff fuel s s1 hc hd hi hstep]
              at h
            exact ih
              { s1 with scrollAttempts := s1.scrollAttempts + 1,
                        iter := s1.iter + 1 } s'
              (processItems_inv env cutoff _ s s1 hs
                (Or.inr (Or.inr hstep))) h
          | failed e =>
            rw [runScan_failPass env cutoff fuel s e hc hd hi hstep]
              at h
            cases h
      · have hd2 : (env.passes s.iter).dialogVisible = false := by
          cases hx : (env.passes s.iter).dialogVisible
          · rfl
          · exact absurd hx hd
        rw [runScan_invisible env cutoff fuel s hc hd2] at h
        exact ih { s with iter := s.iter + 1 } s' hs h
    · rw [runScan_cap env cutoff fuel s hc] at h
      cases h
      exact hs

/-- C2: in any terminating harvest run, every entry identity is opened at
most once and downloaded at most once, and every opened or downloaded
identity is in the visited set (identities are marked visited on a title
match before any click or download side effect, and visited identities
are skipped). -/
theorem idempotentVisitation (env : HarvestEnv) (cutoff : Int)
    (fuel : Nat) (s' : ScanState)
    (h : runScan env cutoff fuel initState = some (Except.ok s')) :
    s'.opened.Nodup ∧ s'.downloaded.Nodup ∧
    (∀ id ∈ s'.opened, id ∈ s'.visitedItems) ∧
    (∀ id ∈ s'.downloaded, id ∈ s'.visitedItems) :=
  runScan_inv env cutoff fuel initState s'
    ⟨List.nodup_nil, List.nodup_nil,
      fun _ hid => absurd hid (List.not_mem_nil _),
      fun _ hid => absurd hid (List.not_mem_nil _)⟩ h

/-- Sample harvest environment whose feed is visible and empty. -/
def envEmptyFeed : HarvestEnv :=
  { passes := fun _ => { dialogVisible := true, items := [] },
    parseDate := fun _ => none }

theorem idempotentVisitation_witness :
    initState.opened.Nodup ∧ initState.downloaded.Nodup ∧
    (∀ id ∈ initState.opened, id ∈ initState.visitedItems) ∧
    (∀ id ∈ initState.downloaded, id ∈ initState.visitedItems) :=
  idempotentVisitation envEmptyFeed 0 1 initState rfl

theorem runScan_neverVisible (env : HarvestEnv) (cutoff : Int)
    (hI : ∀ i, (env.passes i).dialogVisible = false) :
    ∀ (fuel : Nat) (s : ScanState),
      s.scrollAttempts < maxScrollAttempts →
      runScan env cutoff fuel s = none := by
  intro fuel
  induction fuel with
  | zero => intro s _; rfl
  | succ fuel ih =>
    intro s hs
    rw [runScan_invisible env cutoff fuel s hs (hI s.iter)]
    exact ih { s with iter := s.iter + 1 } hs

/-- Sample harvest environment whose activity dialog is never visible. -/
def envNeverVisible : HarvestEnv :=
  { passes := fun _ => { dialogVisible := false, items := [] },
    parseDate := fun _ => none }

/-- C4 counterexample: with the activity dialog never visible, the scan
is still running after 200 loop iterations, four times the scroll-attempt
cap, instead of terminating early with what was collected. -/
theorem invisibleFeedStalls_counterexample :
    runScan envNeverVisible 0 200 initState = none :=
  runScan_neverVisible envNeverVisible 0 (fun _ => rfl) 200 initState
    (by decide)

/-- C4 amended: an invisible feed container makes the pass retry without
consuming scroll attempts, and this retry path is not bounded by the
scroll-attempt cap: if the feed never becomes visible the loop never
terminates, for any iteration budget.  A visible feed with zero rendered
entries does terminate the scan immediately with what has been
collected. -/
theorem invisibleFeedRetryUnbounded :
    (∀ env : HarvestEnv, (∀ i, (env.passes i).dialogVisible = false) →
      ∀ (cutoff : Int) (fuel : Nat) (s : ScanState),
        s.scrollAttempts < maxScrollAttempts →
        runScan env cutoff fuel s = none) ∧
    (∀ (env : HarvestEnv) (cutoff : Int) (fuel : Nat) (s : ScanState),
      s.scrollAttempts < maxScrollAttempts →
      (env.passes s.iter).dialogVisible = true →
      (env.passes s.iter).items = [] →
      runScan env cutoff (fuel + 1) s = some (Except.ok s)) :=
  ⟨fun env hI cutoff fuel s hs =>
    runScan_neverVisible env cutoff hI fuel s hs,
   fun env cutoff fuel s hs hd hi =>
    runScan_emptyPass env cutoff fuel s hs hd hi⟩

theorem invisibleFeedRetryUnbounded_witness :
    runScan envNeverVisible 0 5 initState = none ∧
    runScan envEmptyFeed 0 1 initState = some (Except.ok initState) :=
  ⟨invisibleFeedRetryUnbounded.1 envNeverVisible (fun _ => rfl) 0 5
      initState (by decide),
   invisibleFeedRetryUnbounded.2 envEmptyFeed 0 0 initState (by decide)
      rfl rfl⟩

/-- A pass on which no rendered entry matches the title filter while the
dialog is visible and nonempty. -/
def UnproductivePass (p : PassObs) : Prop :=
  p.dialogVisible = true ∧ p.items ≠ [] ∧
  ∀ it ∈ p.items, matchesTitleOf it = false

theorem processItems_allNoMatch (env : HarvestEnv) (cutoff : Int) :
    ∀ (items : List ActivityItem) (s : ScanState),
      (∀ it ∈ items, matchesTitleOf it = false) →
      processItems env cutoff items s = ForStep.ended s := by
  intro items
  induction items with
  | nil => intro s _; rfl
  | cons item rest ih =>
    intro s hm
    by_cases hnv : s.visitedItems.contains (itemIdOf item) = true
    · rw [processItems_visited env cutoff item rest s hnv]
      exact ih s (fun it hit => hm it (List.mem_cons_of_mem item hit))
    · have hnv2 : s.visitedItems.contains (itemIdOf item) = false := by
        cases hx : s.visitedItems.contains (itemIdOf item)
        · rfl
        · exact absurd hx hnv
      rw [processItems_noMatch env cutoff item rest s hnv2
        (hm item (List.mem_cons_self item rest))]
      exact ih s (fun it hit => hm it (List.mem_cons_of_mem item hit))

theorem runScan_unproductive (env : HarvestEnv) (cutoff : Int)
    (hU : ∀ i, UnproductivePass (env.passes i)) :
    ∀ (n fuel : Nat) (s : ScanState),
      s.scrollAttempts + n = maxScrollAttempts → n < fuel →
      ∃ s', runScan env cutoff fuel s = some (Except.ok s') ∧
        s'.scrollAttempts = maxScrollAttempts ∧
        s'.iter = s.iter + n ∧
        s'.visitedItems = s.visitedItems ∧
        s'.downloadCount = s.downloadCount ∧
        s'.finalFileData = s.finalFileData := by
  intro n
  induction n with
  | zero =>
    intro fuel s hs hf
    obtain ⟨f, rfl⟩ : ∃ f, fuel = f + 1 := ⟨fuel - 1, by omega⟩
    exact ⟨s, runScan_cap env cutoff f s (by omega), by omega, by omega,
      rfl, rfl, rfl⟩
  | succ n ih =>
    intro fuel s hs hf
    obtain ⟨f, rfl⟩ : ∃ f, fuel = f + 1 := ⟨fuel - 1, by omega⟩
    obtain ⟨hd, hi, hm⟩ := hU s.iter
    rw [runScan_endedPass env cutoff f s s (by omega) hd hi
      (processItems_allNoMatch env cutoff _ s hm)]
    obtain ⟨s', h1, h2, h3, h4, h5, h6⟩ := ih f
      { s with scrollAttempts := s.scrollAttempts + 1,
               iter := s.iter + 1 }
      (by simp only []; omega) (by omega)
    refine ⟨s', h1, h2, ?_, h4, h5, h6⟩
    simp only [] at h3
    omega

theorem runScan_unproductive_fuel (env : HarvestEnv) (cutoff : Int)
    (hU : ∀ i, UnproductivePass (env.passes i)) :
    ∀ (fuel n : Nat) (s : ScanState),
      s.scrollAttempts + n = maxScrollAttempts → fuel ≤ n →
      runScan env cutoff fuel s = none := by
  intro fuel
  induction fuel with
  | zero => intro n s _ _; rfl
  | succ fuel ih =>
    intro n s hs hf
    obtain ⟨m, rfl⟩ : ∃ m, n = m + 1 := ⟨n - 1, by omega⟩
    obtain ⟨hd, hi, hm⟩ := hU s.iter
    rw [runScan_endedPass env cutoff fuel s s (by omega) hd hi
      (processItems_allNoMatch env cutoff _ s hm)]
    exact ih m
      { s with scrollAttempts := s.scrollAttempts + 1,
               iter := s.iter + 1 }
      (by simp only []; omega) (by omega)

theorem processItems_itemDone_attempts (env : HarvestEnv)
    (cutoff : Int) :
    ∀ (items : List ActivityItem) (s s1 : ScanState),
      processItems env cutoff items s = ForStep.itemDone s1 →
      s1.scrollAttempts = 0 := by
  intro items
  induction items with
  | nil => intro s s1 h; cases h
  | cons item rest ih =>
    intro s s1 h
    rw [processItems] at h
    by_cases hnv :
        s.visitedItems.contains (itemIdOf item) = true
    · rw [if_pos hnv] at h
      exact ih s s1 h
    · rw [if_neg hnv] at h
      by_cases hm : matchesTitleOf item = true
      · rw [if_pos hm] at h
        by_cases hv : item.visible = true
        · rw [if_pos hv] at h
          by_cases hsv : item.subtitleVisible = true
          · rw [hsv] at h
            simp only [Bool.not_true, Bool.false_eq_true, if_false] at h
            cases hp : env.parseDate (trimOrEmpty item.subtitleText) with
            | none =>
              rw [hp] at h
              simp only [] at h
              exact ih _ s1 h
            | some t =>
              rw [hp] at h
              simp only [] at h
              by_cases ht : t ≤ cutoff
              · rw [if_pos ht] at h; cases h
              · rw [if_neg ht] at h
                cases hdl : downloadActivityFiles item.downloadEnv
                    dlFilter t with
                | error e => rw [hdl] at h; cases h
                | ok out =>
                  rw [hdl] at h
                  cases h
                  rfl
          · have hsv2 : item.subtitleVisible = false := by
              cases hx : item.subtitleVisible
              · rfl
              · exact absurd hx hsv
            rw [hsv2] at h
            simp only [Bool.not_false, if_true] at h
            exact ih _ s1 h
        · rw [if_neg hv] at h
          exact ih _ s1 h
      · rw [if_neg hm] at h
        exact ih s s1 h

/-- Sample harvest environment with one productive first pass and an
empty feed afterwards. -/
def envOneShot : HarvestEnv :=
  { passes := fun i =>
      if i = 0 then { dialogVisible := true, items := [itemZeroFiles] }
      else { dialogVisible := true, items := [] },
    parseDate := fun _ => some 5 }

/-- Final state of the sample one-productive-pass run. -/
def cexFinalState : ScanState :=
  { visitedItems := [itemIdOf itemZeroFiles], scrollAttempts := 1,
    downloadCount := 1, finalFileData := [],
    opened := [itemIdOf itemZeroFiles],
    downloaded := [itemIdOf itemZeroFiles], iter := 1 }

/-- C3 counterexample: a run with exactly one successfully processed item
and no unproductive scroll pass ends with scrollAttempts equal to 1, not
0: the reset to zero at the processing site is followed by the
end-of-pass scroll increment in the same iteration, so the productive
pass itself consumes one unit of the attempt budget. -/
theorem attemptCounterReset_counterexample :
    runScan envOneShot 0 2 initState = some (Except.ok cexFinalState) ∧
    cexFinalState.downloadCount = 1 ∧
    cexFinalState.scrollAttempts = 1 := by
  refine ⟨?_, rfl, rfl⟩
  decide

/-- A pass state in the middle of the one-productive-pass sample run,
directly after its item has been processed. -/
def s1c : ScanState :=
  { visitedItems := [itemIdOf itemZeroFiles], scrollAttempts := 0,
    downloadCount := 1, finalFileData := [],
    opened := [itemIdOf itemZeroFiles],
    downloaded := [itemIdOf itemZeroFiles], iter := 0 }

/-- C3 amended: if no entry ever matches and every pass renders a
nonempty feed, the scan terminates after exactly maxScrollAttempts (50)
unproductive passes (50 loop iterations do not finish, 51 do, with
nothing collected); successful processing of an item sets the
scroll-attempt counter to zero at the processing site, but the same pass
then performs the end-of-pass scroll and increments it, so the scan
continues with the counter at 1 rather than 0. -/
theorem attemptBudgetTermination :
    (∀ (env : HarvestEnv) (cutoff : Int),
      (∀ i, UnproductivePass (env.passes i)) →
      (∀ fuel, maxScrollAttempts < fuel →
        ∃ s', runScan env cutoff fuel initState =
            some (Except.ok s') ∧
          s'.scrollAttempts = maxScrollAttempts ∧
          s'.iter = maxScrollAttempts ∧
          s'.downloadCount = 0 ∧ s'.finalFileData = []) ∧
      (∀ fuel, fuel ≤ maxScrollAttempts →
        runScan env cutoff fuel initState = none)) ∧
    (∀ (env : HarvestEnv) (cutoff : Int) (fuel : Nat)
      (s s1 : ScanState),
      s.scrollAttempts < maxScrollAttempts →
      (env.passes s.iter).dialogVisible = true →
      (env.passes s.iter).items ≠ [] →
      processItems env cutoff (env.passes s.iter).items s =
        ForStep.itemDone s1 →
      s1.scrollAttempts = 0 ∧
      runScan env cutoff (fuel + 1) s =
        runScan env cutoff fuel
          { s1 with scrollAttempts := 1, iter := s1.iter + 1 }) := by
  constructor
  · intro env cutoff hU
    constructor
    · intro fuel hf
      obtain ⟨s', h1, h2, h3, _, h5, h6⟩ :=
        runScan_unproductive env cutoff hU maxScrollAttempts fuel
          initState (by decide) hf
      exact ⟨s', h1, h2, by simpa using h3, by simpa using h5,
        by simpa using h6⟩
    · intro fuel hf
      exact runScan_unproductive_fuel env cutoff hU fuel
        maxScrollAttempts initState (by decide) hf
  · intro env cutoff fuel s s1 hc hd hi hp
    have h0 := processItems_itemDone_attempts env cutoff _ s s1 hp
    refine ⟨h0, ?_⟩
    rw [runScan_donePass env cutoff fuel s s1 hc hd hi hp, h0]

/-- Sample non-matching activity row. -/
def itemOther : ActivityItem :=
  { subtext := some "o", title := some "Other", visible := true,
    subtitleVisible := false, subtitleText := none,
    downloadEnv := dEnvAbsent }

/-- Sample harvest environment every pass of which renders one
non-matching row. -/
def envAllNoMatch : HarvestEnv :=
  { passes := fun _ => { dialogVisible := true, items := [itemOther] },
    parseDate := fun _ => none }

theorem attemptBudgetTermination_witness :
    ((∃ s', runScan envAllNoMatch 0 51 initState =
        some (Except.ok s') ∧
      s'.scrollAttempts = maxScrollAttempts ∧
      s'.iter = maxScrollAttempts ∧
      s'.downloadCount = 0 ∧ s'.finalFileData = []) ∧
     runScan envAllNoMatch 0 50 initState = none) ∧
    (s1c.scrollAttempts = 0 ∧
     runScan envOneShot 0 1 initState =
       runScan envOneShot 0 0
         { s1c with scrollAttempts := 1, iter := s1c.iter + 1 }) :=
  ⟨⟨(attemptBudgetTermination.1 envAllNoMatch 0
      (fun _ => ⟨rfl, List.cons_ne_nil _ _, by
        show ∀ it ∈ [itemOther], matchesTitleOf it = false
        decide⟩)).1 51 (by decide),
    (attemptBudgetTermination.1 envAllNoMatch 0
      (fun _ => ⟨rfl, List.cons_ne_nil _ _, by
        show ∀ it ∈ [itemOther], matchesTitleOf it = false
        decide⟩)).2 50 (by decide)⟩,
   attemptBudgetTermination.2 envOneShot 0 0 initState s1c (by decide)
     rfl (List.cons_ne_nil _ _) (by decide)⟩

theorem contains_cons_of_contains (l : List String) (a x : String)
    (h : l.contains x = true) : (a :: l).contains x = true := by
  simp at h ⊢
  exact Or.inr h

theorem contains_cons_self (l : List String) (a : String) :
    (a :: l).contains a = true := by
  simp

theorem contains_cons_false (l : List String) (a x : String)
    (hx : l.contains x = false) (hne : x ≠ a) :
    (a :: l).contains x = false := by
  simp at hx ⊢
  exact ⟨hne, hx⟩

theorem runScan_cutoffSegment (env : HarvestEnv) (cutoff : Int)
    (items : List ActivityItem)
    (hpass : ∀ i, env.passes i =
      { dialogVisible := true, items := items }) :
    ∀ (k : Nat) (pre suf : List ActivityItem) (tss : List Int) (tk : Int)
      (s : ScanState) (fuel : Nat),
      items = pre ++ suf →
      (suf.map itemIdOf).Nodup →
      (∀ it ∈ suf, matchesTitleOf it = true ∧ it.visible = true ∧
        it.subtitleVisible = true) →
      List.Forall₂ (fun (it : ActivityItem) (t : Int) =>
        env.parseDate (trimOrEmpty it.subtitleText) = some t ∧
        (¬ t ≤ cutoff → ∃ out,
          downloadActivityFiles it.downloadEnv dlFilter t =
            Except.ok out)) suf tss →
      (∀ t ∈ tss.take k, ¬ t ≤ cutoff) →
      tss.get? k = some tk →
      tk ≤ cutoff →
      s.scrollAttempts < maxScrollAttempts →
      (∀ it ∈ pre, s.visitedItems.contains (itemIdOf it) = true) →
      (∀ it ∈ suf, s.visitedItems.contains (itemIdOf it) = false) →
      k + 1 ≤ fuel →
      ∃ s', runScan env cutoff fuel s = some (Except.ok s') ∧
        s'.downloaded = s.downloaded ++ (suf.take k).map itemIdOf ∧
        s'.opened = s.opened ++ (suf.take (k + 1)).map itemIdOf ∧
        s'.downloadCount = s.downloadCount + k := by
  intro k
  induction k with
  | zero =>
    intro pre suf tss tk s fuel hitems hnd hall hts hfresh hget hstop hc
      hvis hfreshS hfuel
    obtain ⟨f, rfl⟩ : ∃ f, fuel = f + 1 := ⟨fuel - 1, by omega⟩
    cases hts with
    | nil => simp at hget
    | cons h1 h2 =>
      rename_i it0 t0 suf2 tss2
      have ht0 : t0 = tk := by
        simp only [List.get?] at hget
        exact Option.some_injective _ hget
      subst ht0
      have hpi : processItems env cutoff
          (env.passes s.iter).items s =
          ForStep.stopScan (openState s it0) := by
        rw [hpass s.iter]
        show processItems env cutoff items s = _
        rw [hitems,
          processItems_skip env cutoff pre (it0 :: suf2) s hvis]
        exact processItems_stop env cutoff it0 suf2 s t0
          (hfreshS it0 (List.mem_cons_self _ _))
          (hall it0 (List.mem_cons_self _ _)).1
          (hall it0 (List.mem_cons_self _ _)).2.1
          (hall it0 (List.mem_cons_self _ _)).2.2
          h1.1 hstop
      refine ⟨openState s it0,
        runScan_stopPass env cutoff f s _ hc (by rw [hpass s.iter])
          (by rw [hpass s.iter]; simp [hitems]) hpi, ?_, ?_, ?_⟩
      · simp [openState]
      · simp [openState]
      · simp [openState]
  | succ k ih =>
    intro pre suf tss tk s fuel hitems hnd hall hts hfresh hget hstop hc
      hvis hfreshS hfuel
    obtain ⟨f, rfl⟩ : ∃ f, fuel = f + 1 := ⟨fuel - 1, by omega⟩
    cases hts with
    | nil => simp at hget
    | cons h1 h2 =>
      rename_i it0 t0 suf2 tss2
      rw [List.map_cons, List.nodup_cons] at hnd
      have hnt0 : ¬ t0 ≤ cutoff := by
        refine hfresh t0 ?_
        rw [List.take_succ_cons]
        exact List.mem_cons_self _ _
      have hfresh2 : ∀ t ∈ tss2.take k, ¬ t ≤ cutoff := by
        intro t htm
        refine hfresh t ?_
        rw [List.take_succ_cons]
        exact List.mem_cons_of_mem _ htm
      obtain ⟨out, hout⟩ := h1.2 hnt0
      have hpi : processItems env cutoff
          (env.passes s.iter).items s =
          ForStep.itemDone (doneState s it0 out) := by
        rw [hpass s.iter]
        show processItems env cutoff items s = _
        rw [hitems,
          processItems_skip env cutoff pre (it0 :: suf2) s hvis]
        exact processItems_done env cutoff it0 suf2 s t0 out
          (hfreshS it0 (List.mem_cons_self _ _))
          (hall it0 (List.mem_cons_self _ _)).1
          (hall it0 (List.mem_cons_self _ _)).2.1
          (hall it0 (List.mem_cons_self _ _)).2.2
          h1.1 hnt0 hout
      rw [show (f + 1) = f + 1 from rfl]
      have hrw := runScan_donePass env cutoff f s (doneState s it0 out)
        hc (by rw [hpass s.iter]) (by rw [hpass s.iter]; simp [hitems])
        hpi
      obtain ⟨s', h1', h2', h3', h4'⟩ := ih (pre ++ [it0]) suf2 tss2 tk
        { doneState s it0 out with
          scrollAttempts := (doneState s it0 out).scrollAttempts + 1,
          iter := (doneState s it0 out).iter + 1 }
        f
        (by rw [hitems, List.append_cons])
        hnd.2
        (fun it hit => hall it (List.mem_cons_of_mem it0 hit))
        h2
        hfresh2
        hget hstop
        (by simp [doneState, openState, maxScrollAttempts])
        (by
          intro it hit
          simp only [doneState, openState]
          rcases List.mem_append.mp hit with hmem | hmem
          · exact contains_cons_of_contains _ _ _ (hvis it hmem)
          · rw [List.mem_singleton] at hmem
            subst hmem
            exact contains_cons_self _ _)
        (by
          intro it hit
          simp only [doneState, openState]
          refine contains_cons_false _ _ _
            (hfreshS it (List.mem_cons_of_mem it0 hit)) ?_
          intro heq
          exact hnd.1 (heq ▸ List.mem_map_of_mem itemIdOf hit))
        (by omega)
      refine ⟨s', by rw [hrw]; exact h1', ?_, ?_, ?_⟩
      · rw [h2']
        simp [doneState, openState, List.take_succ_cons]
      · rw [h3']
        simp [doneState, openState, List.take_succ_cons]
      · rw [h4']
        simp only [doneState, openState]
        omega

/-- C1: over a constant feed of fresh, visible, parseable entries all
matching the title filter, with parsed timestamps tss and the first
at-or-before-cutoff timestamp at position k, the harvest downloads
exactly the first k entries (in feed order), opens exactly the first
k + 1 (the stop entry is opened to read its timestamp, which signals
stop-scan), and never opens or downloads any entry past the stop
point. -/
theorem cutoffStopsScan (env : HarvestEnv) (cutoff : Int)
    (items : List ActivityItem) (tss : List Int) (k : Nat) (tk : Int)
    (hpass : ∀ i, env.passes i =
      { dialogVisible := true, items := items })
    (hnd : (items.map itemIdOf).Nodup)
    (hall : ∀ it ∈ items, matchesTitleOf it = true ∧ it.visible = true ∧
      it.subtitleVisible = true)
    (hts : List.Forall₂ (fun (it : ActivityItem) (t : Int) =>
      env.parseDate (trimOrEmpty it.subtitleText) = some t ∧
      (¬ t ≤ cutoff → ∃ out,
        downloadActivityFiles it.downloadEnv dlFilter t =
          Except.ok out)) items tss)
    (hfresh : ∀ t ∈ tss.take k, ¬ t ≤ cutoff)
    (hget : tss.get? k = some tk)
    (hstop : tk ≤ cutoff)
    (fuel : Nat) (hfuel : k + 1 ≤ fuel) :
    ∃ s', runScan env cutoff fuel initState = some (Except.ok s') ∧
      s'.downloaded = (items.take k).map itemIdOf ∧
      s'.opened = (items.take (k + 1)).map itemIdOf ∧
      s'.downloadCount = k ∧
      ∀ it ∈ items.drop (k + 1),
        itemIdOf it ∉ s'.opened ∧ itemIdOf it ∉ s'.downloaded := by
  obtain ⟨s', h1, h2, h3, h4⟩ := runScan_cutoffSegment env cutoff items
    hpass k [] items tss tk initState fuel rfl hnd hall hts hfresh hget
    hstop (by decide)
    (fun it hit => absurd hit (List.not_mem_nil it))
    (fun it _ => rfl) hfuel
  have h2' : s'.downloaded = (items.take k).map itemIdOf := by
    simpa using h2
  have h3' : s'.opened = (items.take (k + 1)).map itemIdOf := by
    simpa using h3
  have h4' : s'.downloadCount = k := by simpa [initState] using h4
  have hsplit : items.take (k + 1) ++ items.drop (k + 1) = items :=
    List.take_append_drop _ _
  have hnd2 : ((items.take (k + 1)).map itemIdOf ++
      (items.drop (k + 1)).map itemIdOf).Nodup := by
    rw [← List.map_append, hsplit]
    exact hnd
  rw [List.nodup_append] at hnd2
  refine ⟨s', h1, h2', h3', h4', ?_⟩
  intro it hit
  have hmem : itemIdOf it ∈ (items.drop (k + 1)).map itemIdOf :=
    List.mem_map_of_mem _ hit
  have hno : itemIdOf it ∉ (items.take (k + 1)).map itemIdOf := by
    intro hin
    exact hnd2.2.2 hin hmem
  constructor
  · rw [h3']
    exact hno
  · rw [h2']
    intro hin
    refine hno (List.map_subset itemIdOf ?_ hin)
    have htk : items.take k = (items.take (k + 1)).take k := by
      rw [List.take_take, Nat.min_eq_left (Nat.le_succ k)]
    rw [htk]
    exact List.take_subset _ _

/-- Sample fresh matching entry with parsed timestamp 5. -/
def itemA : ActivityItem :=
  { subtext := some "a", title := some "Received A", visible := true,
    subtitleVisible := true, subtitleText := some "five",
    downloadEnv := dEnvAbsent }

/-- Sample stale matching entry with parsed timestamp 1. -/
def itemB : ActivityItem :=
  { subtext := some "b", title := some "Received B", visible := true,
    subtitleVisible := true, subtitleText := some "one",
    downloadEnv := dEnvAbsent }

/-- Sample constant reverse-chronological feed of the two entries. -/
def envTwo : HarvestEnv :=
  { passes := fun _ => { dialogVisible := true, items := [itemA, itemB] },
    parseDate := fun s =>
      if s == "five" then some 5
      else if s == "one" then some 1 else none }

theorem cutoffStopsScan_witness :
    ∃ s', runScan envTwo 2 2 initState = some (Except.ok s') ∧
      s'.downloaded = ([itemA, itemB].take 1).map itemIdOf ∧
      s'.opened = ([itemA, itemB].take 2).map itemIdOf ∧
      s'.downloadCount = 1 ∧
      ∀ it ∈ [itemA, itemB].drop 2,
        itemIdOf it ∉ s'.opened ∧ itemIdOf it ∉ s'.downloaded :=
  cutoffStopsScan envTwo 2 [itemA, itemB] [5, 1] 1 1 (fun _ => rfl)
    (by decide) (by decide)
    (List.Forall₂.cons ⟨rfl, fun _ => ⟨emptyOutcome, rfl⟩⟩
      (List.Forall₂.cons
        ⟨rfl, fun h => absurd (by norm_num : (1 : Int) ≤ 2) h⟩
        List.Forall₂.nil))
    (by decide) rfl (by norm_num) 2 (by norm_num)
